import Mathlib

/-!
Shallow embedding of the route-template compiler in
`src/core/codegen/src/attribute/segments.rs` and
`src/core/codegen/src/http_codegen.rs`.

Rust string slices are modelled as a `String` together with the character
offset at which the slice starts inside its haystack (the spec's design note
prescribes exactly this replacement for the pointer-offset arithmetic).
Source spans are half-open character ranges.  Rust functions that can panic
via `.expect(..)` are modelled in the `Option` monad, `none` standing for the
panic.  `RouteSegment::parse_one` and `RouteSegment::parse_many` live in
`http::route`, outside the listing, and are modelled from the spec where
noted.
-/

namespace Rocket

/-- A source span: a half-open character range `[lo, hi)` inside the original
declaration text.  Models `proc_macro::Span` restricted to what the code
observes (subspan computation and comparison). -/
structure Span where
  lo : Nat
  hi : Nat
deriving DecidableEq, Repr

/-- Length of the span in characters. -/
def Span.len (s : Span) : Nat := s.hi - s.lo

/-- Models `proc_macro::Span::subspan(a..b)`: the sub-range `[a, b)` relative
to `s`, or `none` when the range does not fit inside `s`. -/
def Span.subspan (s : Span) (a b : Nat) : Option Span :=
  if a ≤ b ∧ b ≤ s.len then some ⟨s.lo + a, s.lo + b⟩ else none

/-- Models `proc_macro::Span::subspan(a..)`: from relative offset `a` through
the end of `s`. -/
def Span.subspanFrom (s : Span) (a : Nat) : Option Span :=
  if a ≤ s.len then some ⟨s.lo + a, s.hi⟩ else none

/-- A Rust `&str` that is a slice of some haystack string: the text together
with the character offset of its start inside the haystack.  The offset
replaces the `needle.as_ptr() - haystack.as_ptr()` pointer arithmetic. -/
structure Slice where
  str : String
  off : Nat
deriving DecidableEq, Repr

/-- Severity of a (sub-)diagnostic, as used by the code. -/
inductive DiagLevel
  | error
  | help
  | note
deriving DecidableEq, Repr

/-- A secondary annotation attached to a diagnostic: `.help(..)`,
`.note(..)` carry no span, `.span_note(sp, ..)` carries one. -/
structure SubDiag where
  level : DiagLevel
  span : Option Span
  msg : String
deriving DecidableEq, Repr

/-- Models `proc_macro::Diagnostic`: a primary message anchored at a span,
plus ordered secondary annotations. -/
structure Diagnostic where
  span : Span
  msg : String
  children : List SubDiag
deriving DecidableEq, Repr

/-- Models `Span::error(msg)`: a fresh error diagnostic anchored at `s`. -/
def Span.error (s : Span) (msg : String) : Diagnostic := ⟨s, msg, []⟩

/-- Models `Diagnostic::help(msg)`. -/
def Diagnostic.help (d : Diagnostic) (msg : String) : Diagnostic :=
  { d with children := d.children ++ [⟨DiagLevel.help, none, msg⟩] }

/-- Models `Diagnostic::note(msg)`. -/
def Diagnostic.note (d : Diagnostic) (msg : String) : Diagnostic :=
  { d with children := d.children ++ [⟨DiagLevel.note, none, msg⟩] }

/-- Models `Diagnostic::span_note(sp, msg)`. -/
def Diagnostic.span_note (d : Diagnostic) (sp : Span) (msg : String) : Diagnostic :=
  { d with children := d.children ++ [⟨DiagLevel.note, some sp, msg⟩] }

/-- `Kind` from `http::route`, re-exported and used by the listing. -/
inductive Kind
  | Static
  | Single
  | Multi
deriving DecidableEq, Repr

/-- `Source` (provenance) from `http::route`, re-exported and used by the
listing. -/
inductive Source
  | Unknown
  | Path
  | Query
  | Data
deriving DecidableEq, Repr

/-- `Error` from `http::route`: the variants are pinned by their uses in
`into_diagnostic`.  `Trailing` carries the multi-segment piece (a slice of
the parsed string) so its location can be recovered. -/
inductive Error
  | Empty
  | Ident (name : String)
  | Ignored
  | MissingClose
  | Malformed
  | Uri
  | Trailing (multi : Slice)
deriving DecidableEq, Repr

/-- `true` exactly on `Error::Trailing(..)`; models the
`if let Error::Trailing(..) = error` test in `parse_segments`. -/
def Error.isTrailing : Error → Bool
  | Error.Trailing _ => true
  | _ => false

/-- `subspan` from `segments.rs`: the span of `needle` inside `span` (the
span of `haystack`), computed from the slice offset. -/
def subspan (needle : Slice) (haystack : String) (span : Span) : Option Span :=
  Span.subspan span needle.off (needle.off + needle.str.data.length)

/-- `trailspan` from `segments.rs`: the span from `needle` through the end of
`haystack`; when `needle` does not start the haystack, it starts one
character earlier (`span.subspan((index - 1)..)` in the code). -/
def trailspan (needle : Slice) (haystack : String) (span : Span) : Option Span :=
  if needle.off > 0 then
    Span.subspanFrom span (needle.off - 1)
  else
    Span.subspanFrom span needle.off

/-- `into_diagnostic` from `segments.rs`: formats one route-template error as
a diagnostic, anchored at the subspan of the failing piece.  `none` models
the `.expect(..)` panics on a subspan failure. -/
def into_diagnostic (segment : Slice) (source : String) (span : Span)
    (error : Error) : Option Diagnostic := do
  let seg_span ← subspan segment source span
  match error with
  | Error.Empty =>
      pure (seg_span.error "parameter names cannot be empty")
  | Error.Ident name =>
      pure ((seg_span.error ("\x60" ++ name ++ "\x60 is not a valid identifier")).help
        "parameter names must be valid identifiers")
  | Error.Ignored =>
      pure ((seg_span.error "parameters must be named").help
        "use a name such as \x60_guard\x60 or \x60_param\x60")
  | Error.MissingClose =>
      pure ((seg_span.error "parameter is missing a closing bracket").help
        ("did you mean \x27" ++ segment.str ++ ">\x27?"))
  | Error.Malformed =>
      pure (((seg_span.error "malformed parameter or identifier").help
        "parameters must be of the form \x27<param>\x27").help
        "identifiers cannot contain \x27<\x27 or \x27>\x27")
  | Error.Uri =>
      pure ((seg_span.error "component contains invalid URI characters").note
        "components cannot contain \x27%\x27 and \x27+\x27 characters")
  | Error.Trailing multi => do
      let multi_span ← subspan multi source span
      let tspan ← trailspan segment source span
      pure (((tspan.error "unexpected trailing text after a \x27..\x27 param").help
        "a multi-segment param must be the final component").span_note multi_span
        "multi-segment param is here")

/-- First character alphabetic or underscore (spec identifier rule). -/
def isIdentStart (c : Char) : Bool := c.isAlpha || c = '_'

/-- Remaining characters alphanumeric or underscore (spec identifier rule). -/
def isIdentCont (c : Char) : Bool := c.isAlphanum || c = '_'

/-- The conservative valid-identifier rule of spec section 4.1. -/
def is_valid_ident (s : String) : Bool :=
  match s.data with
  | [] => false
  | c :: cs => isIdentStart c && cs.all isIdentCont

/-- Character-list helpers standing for the byte-oriented `str` methods of
the source (inputs are treated at character granularity). -/
def strStartsWithChar (s : String) (c : Char) : Bool :=
  match s.data with
  | [] => false
  | a :: _ => a = c

/-- Last character equals `c`. -/
def strEndsWithChar (s : String) (c : Char) : Bool :=
  match s.data.getLast? with
  | none => false
  | some a => a = c

/-- `s.contains(c)` on characters. -/
def strContainsChar (s : String) (c : Char) : Bool := s.data.contains c

/-- `s.ends_with(pat)` on strings. -/
def strEndsWith (s pat : String) : Bool := pat.data.isSuffixOf s.data

/-- `s.starts_with(pat)` on strings. -/
def strStartsWith (s pat : String) : Bool := pat.data.isPrefixOf s.data

/-- `pat` occurs as a contiguous sublist of the second argument. -/
def listIsInfix (pat : List Char) : List Char → Bool
  | [] => pat.isEmpty
  | c :: cs => pat.isPrefixOf (c :: cs) || listIsInfix pat cs

/-- `s.contains(pat)` on strings. -/
def strContains (s pat : String) : Bool := listIsInfix pat.data s.data

/-- Drop the first `n` characters. -/
def strDrop (s : String) (n : Nat) : String := ⟨s.data.drop n⟩

/-- Drop the last `n` characters. -/
def strDropRight (s : String) (n : Nat) : String := ⟨s.data.take (s.data.length - n)⟩

/-- `RouteSegment` from `http::route`: the raw piece (as a slice of the
parsed string), its classification, provenance, name, and ordinal index. -/
structure RouteSegment where
  string : Slice
  kind : Kind
  source : Source
  name : String
  index : Option Nat
deriving DecidableEq, Repr

/-- Modelled from the spec: `RouteSegment::parse_one` lives in `http::route`,
which is not part of the listing.  This follows the Segment Grammar of spec
section 4.1: empty piece (or empty placeholder name) is `Empty`; a
`<`..`>`-delimited piece is `Multi` when the interior ends in `..`, else
`Single`, with nested brackets `Malformed`, the discard name `_` rejected as
`Ignored` and other invalid names as `Ident`; a piece opening `<` without a
closing `>` is `MissingClose`; a bracketless piece is `Static`, rejected as
`Uri` when it contains `%` or `+`.  The returned segment carries provenance
`Unknown` (provenance is set by the caller) and no index. -/
def parse_one (piece : String) : Except Error RouteSegment :=
  if piece.data.isEmpty then Except.error Error.Empty
  else if strStartsWithChar piece '<' then
    if strEndsWithChar piece '>' then
      let content := strDropRight (strDrop piece 1) 1
      if strContainsChar content '<' || strContainsChar content '>' then
        Except.error Error.Malformed
      else
        let kn : Kind × String :=
          if strEndsWith content ".." then (Kind.Multi, strDropRight content 2)
          else (Kind.Single, content)
        if kn.2.data.isEmpty then Except.error Error.Empty
        else if kn.2 = "_" then Except.error Error.Ignored
        else if is_valid_ident kn.2 then
          Except.ok ⟨⟨piece, 0⟩, kn.1, Source.Unknown, kn.2, none⟩
        else Except.error (Error.Ident kn.2)
    else Except.error Error.MissingClose
  else if strContainsChar piece '<' || strContainsChar piece '>' then
    Except.error Error.Malformed
  else if strContainsChar piece '%' || strContainsChar piece '+' then
    Except.error Error.Uri
  else Except.ok ⟨⟨piece, 0⟩, Kind.Static, Source.Unknown, piece, none⟩

/-- Split a character list on `sep`, keeping for every piece the character
offset of its start; `start` is the offset of the piece being accumulated
and `acc` its characters in reverse. -/
def splitSliceAux (sep : Char) : List Char → Nat → List Char → List Slice
  | [], start, acc => [⟨⟨acc.reverse⟩, start⟩]
  | c :: cs, start, acc =>
    if c = sep then
      ⟨⟨acc.reverse⟩, start⟩ :: splitSliceAux sep cs (start + acc.length + 1) []
    else
      splitSliceAux sep cs start (c :: acc)

/-- `string.split(sep)` with slice offsets (Rust `str::split` semantics:
leading, trailing and doubled separators yield empty pieces). -/
def splitWithOffsets (s : String) (sep : Char) : List Slice :=
  splitSliceAux sep s.data 0 []

/-- One item of the `parse_many` sequence: a parsed segment, or the failing
piece paired with its error. -/
abbrev SResult := Except (Slice × Error) RouteSegment

/-- Modelled from the spec: the piece-by-piece loop of
`RouteSegment::parse_many` (`http::route`, not part of the listing).
Runs the grammar on each non-empty piece; once a piece follows a `Multi`
piece, it yields `Trailing` carrying that multi piece and stops producing
further items (spec section 4.3). -/
def parseManyGo (source : Source) :
    List Slice → Option Slice → Nat → List SResult
  | [], _, _ => []
  | p :: ps, lastMulti, i =>
    match lastMulti with
    | some m => [Except.error (p, Error.Trailing m)]
    | none =>
      match parse_one p.str with
      | Except.error e => Except.error (p, e) :: parseManyGo source ps none (i + 1)
      | Except.ok seg =>
        let seg := { seg with string := p, source := source, index := some i }
        Except.ok seg ::
          parseManyGo source ps (if seg.kind = Kind.Multi then some p else none) (i + 1)

/-- Modelled from the spec: `RouteSegment::parse_many` splits `string` on
`sep` into pieces (empty pieces are skipped: the trailing condition of spec
section 4.3 only concerns non-empty pieces, and path/query structure rules
out meaningful empty pieces), grades each with the grammar, tags successes
with `source`, and stops after a `Trailing` error. -/
def parse_many (string : String) (sep : Char) (source : Source) : List SResult :=
  parseManyGo source ((splitWithOffsets string sep).filter (fun p => !p.str.data.isEmpty)) none 0

/-- `Segment` from `segments.rs`. -/
structure Segment where
  span : Span
  kind : Kind
  source : Source
  name : String
  index : Option Nat
deriving DecidableEq, Repr

/-- `Segment::from(segment, span)` from `segments.rs`. -/
def Segment.fromRoute (segment : RouteSegment) (span : Span) : Segment :=
  ⟨span, segment.kind, segment.source, segment.name, segment.index⟩

/-- `impl PartialEq for Segment`: equality compares only the names. -/
def Segment.beq (a b : Segment) : Bool := a.name == b.name

/-- `impl Hash for Segment`: hashing feeds only the name to the hasher.
The hasher is abstracted as any state type `σ` with a string-hash step. -/
def Segment.hash {σ : Type} (stringHash : String → σ → σ) (s : Segment)
    (state : σ) : σ :=
  stringHash s.name state

/-- `parse_segment` from `segments.rs`: grade a single piece (the haystack
is the piece itself, so the slice offset is 0). -/
def parse_segment (segment : String) (span : Span) :
    Option (Except Diagnostic Segment) :=
  match parse_one segment with
  | Except.ok seg => some (Except.ok (Segment.fromRoute seg span))
  | Except.error e => (into_diagnostic ⟨segment, 0⟩ segment span e).map Except.error

/-- One iteration of the `parse_segments` loop body from `segments.rs`, as
a function of the current result and the outcome of the remaining
iterations: a failing piece contributes its formatted diagnostic (`none`
models the `.expect(..)` panic) and, when the error is `Trailing`, breaks —
discarding whatever the remaining pieces would have produced; a successful
piece contributes its located segment. -/
def parseSegmentsStep (string : String) (span : Span) (r : SResult)
    (acc : Option (List Segment × List Diagnostic)) :
    Option (List Segment × List Diagnostic) :=
  match r with
  | Except.error (s, e) =>
    match into_diagnostic s string span e with
    | none => none
    | some d =>
      if e.isTrailing then some ([], [d])
      else acc.map (fun p => (p.1, d :: p.2))
  | Except.ok seg =>
    match subspan seg.string string span with
    | none => none
    | some sp => acc.map (fun p => (Segment.fromRoute seg sp :: p.1, p.2))

/-- The `parse_segments` loop from `segments.rs` over an explicit result
list: segments and diagnostics accumulated in piece order, stopping at a
`Trailing` error. -/
def parseSegmentsGo (string : String) (span : Span)
    (results : List SResult) : Option (List Segment × List Diagnostic) :=
  results.foldr (parseSegmentsStep string span) (some ([], []))

/-- `diags.err_or(segments)` applied to the loop's accumulators: `Ok` with
the segments exactly when no diagnostic was collected. -/
def segmentsOf (string : String) (span : Span) (results : List SResult) :
    Option (Except (List Diagnostic) (List Segment)) :=
  match parseSegmentsGo string span results with
  | none => none
  | some (segments, diags) =>
    some (if diags = [] then Except.ok segments else Except.error diags)

/-- `parse_segments` from `segments.rs`: drive `parse_many` to completion
(stopping after a `Trailing` error), collecting diagnostics and segments. -/
def parse_segments (string : String) (sep : Char) (source : Source)
    (span : Span) : Option (Except (List Diagnostic) (List Segment)) :=
  segmentsOf string span (parse_many string sep source)

/-- Modelled from the spec: `http::Status` (an external HTTP vocabulary
type); only the numeric code is observed by the listing. -/
structure HttpStatus where
  code : Nat
deriving DecidableEq, Repr

/-- Modelled from the spec: `http::Status::raw(n as u16)` stores the code;
the Rust cast to `u16` reduces modulo 2^16. -/
def HttpStatus.raw (n : Nat) : HttpStatus := ⟨n % 65536⟩

/-- `impl FromMeta for Status` from `http_codegen.rs`, after the external
`usize::from_meta` extraction: `num` is the extracted integer and `span` the
meta item's value span. -/
def Status.from_meta (num : Nat) (span : Span) : Except Diagnostic HttpStatus :=
  if num < 100 ∨ 600 ≤ num then
    Except.error (span.error "status must be in range [100, 599]")
  else
    Except.ok (HttpStatus.raw num)

/-- Modelled from the spec: `http::Method` (external HTTP vocabulary type);
the nine variants are pinned by the `ToTokens` match in the listing. -/
inductive HttpMethod
  | Get
  | Put
  | Post
  | Delete
  | Options
  | Head
  | Trace
  | Connect
  | Patch
deriving DecidableEq, Repr

/-- Uppercase a string character-wise (ASCII case folding). -/
def strToUpper (s : String) : String := ⟨s.data.map Char.toUpper⟩

/-- Modelled from the spec: the external `http::Method` string parser
(`ident.to_string().parse()`), which recognises each method name
case-insensitively. -/
def parseMethod (s : String) : Option HttpMethod :=
  let u := strToUpper s
  if u = "GET" then some HttpMethod.Get
  else if u = "PUT" then some HttpMethod.Put
  else if u = "POST" then some HttpMethod.Post
  else if u = "DELETE" then some HttpMethod.Delete
  else if u = "OPTIONS" then some HttpMethod.Options
  else if u = "HEAD" then some HttpMethod.Head
  else if u = "TRACE" then some HttpMethod.Trace
  else if u = "CONNECT" then some HttpMethod.Connect
  else if u = "PATCH" then some HttpMethod.Patch
  else none

/-- `VALID_METHODS_STR` from `http_codegen.rs`. -/
def VALID_METHODS_STR : String :=
  "\x60GET\x60, \x60PUT\x60, \x60POST\x60, \x60DELETE\x60, \x60HEAD\x60, \x60PATCH\x60, \x60OPTIONS\x60"

/-- `VALID_METHODS` from `http_codegen.rs`. -/
def VALID_METHODS : List HttpMethod :=
  [HttpMethod.Get, HttpMethod.Put, HttpMethod.Post,
   HttpMethod.Delete, HttpMethod.Head, HttpMethod.Patch,
   HttpMethod.Options]

/-- The shape of a `devise::MetaItem` as observed by `Method::from_meta`:
either an identifier, or anything else carrying its rendered description. -/
inductive MetaItem
  | ident (s : String)
  | other (descr : String)
deriving DecidableEq, Repr

/-- `impl FromMeta for Method` from `http_codegen.rs`; `span` is
`meta.value_span()`. -/
def Method.from_meta (meta : MetaItem) (span : Span) :
    Except Diagnostic HttpMethod :=
  let help_text := "method must be one of: " ++ VALID_METHODS_STR
  match meta with
  | MetaItem.ident s =>
    match parseMethod s with
    | none => Except.error ((span.error "invalid HTTP method").help help_text)
    | some method =>
      if !VALID_METHODS.contains method then
        Except.error ((span.error "invalid HTTP method for route handlers").help help_text)
      else
        Except.ok method
  | MetaItem.other descr =>
    Except.error ((span.error ("expected identifier, found " ++ descr)).help help_text)

/-- `impl FromMeta for Segment` from `http_codegen.rs`, after the external
`String::from_meta` extraction: `string` is the extracted literal and
`vspan` the meta item's value span (which includes the quotes, hence the
`subspan(1..len + 1)`).  `none` models the `.expect("segment")` panic. -/
def Segment.from_meta (string : String) (vspan : Span) :
    Option (Except Diagnostic Segment) := do
  let span ← vspan.subspan 1 (string.data.length + 1)
  let res ← parse_segment string span
  match res with
  | Except.error d => some (Except.error d)
  | Except.ok segment =>
    if segment.kind ≠ Kind.Single then
      some (Except.error ((span.error "malformed parameter").help
        "parameter must be of the form \x27<param>\x27"))
    else
      some (Except.ok segment)

/-- `impl FromMeta for DataSegment` from `http_codegen.rs`: delegate to
`Segment::from_meta`, then force provenance `Data` and index 0. -/
def DataSegment.from_meta (string : String) (vspan : Span) :
    Option (Except Diagnostic Segment) := do
  let res ← Segment.from_meta string vspan
  match res with
  | Except.error d => some (Except.error d)
  | Except.ok segment =>
    some (Except.ok { segment with source := Source.Data, index := some 0 })

/-- Modelled from the spec: the normalized origin URI produced by the
external `Origin::from_meta` collaborator, observed through its `path()`
and optional `query()` accessors. -/
structure Origin where
  path : String
  query : Option String
deriving DecidableEq, Repr

/-- `RoutePath` from `http_codegen.rs`. -/
structure RoutePath where
  origin : Origin
  path : List Segment
  query : Option (List Segment)
deriving DecidableEq, Repr

/-- The path half of `RoutePath::from_meta`: split the path portion on `/`
with `Path` provenance, inside `span.subspan(1..path.len() + 1)`.  The error
payload is the collected diagnostic report (`proc_macro_ext::Diagnostics`,
not part of the listing, is modelled from the spec as the list of collected
diagnostics). -/
def pathHalf (origin : Origin) (span : Span) :
    Option (Except (List Diagnostic) (List Segment)) := do
  let path_span ← span.subspan 1 (origin.path.data.length + 1)
  parse_segments origin.path '/' Source.Path path_span

/-- The query half of `RoutePath::from_meta` (after `transpose`): absent
query succeeds with `none`; a query starting or ending with `&` or
containing `&&` is rejected structurally with the single empty-query-segment
diagnostic; otherwise the query is split on `&` with `Query` provenance. -/
def queryHalf (origin : Origin) (span : Span) :
    Option (Except (List Diagnostic) (Option (List Segment))) :=
  match origin.query with
  | none => some (Except.ok none)
  | some q => do
    let len_to_q := 1 + origin.path.data.length + 1
    let end_of_q := len_to_q + q.data.length
    let query_span ← span.subspan len_to_q end_of_q
    if strStartsWithChar q '&' || strContains q "&&" || strEndsWithChar q '&' then
      some (Except.error [query_span.error "query cannot contain empty segments"])
    else
      (parse_segments q '&' Source.Query query_span).map (Except.map some)

/-- `impl FromMeta for RoutePath` from `http_codegen.rs`, after the external
`Origin::from_meta` normalization: merge the two halves, joining both
diagnostic reports when both fail (`Diagnostics::join`/`emit_head`, modelled
from the spec as concatenation of the two reports). -/
def RoutePath.from_meta (origin : Origin) (span : Span) :
    Option (Except (List Diagnostic) RoutePath) := do
  let path ← pathHalf origin span
  let query ← queryHalf origin span
  match path, query with
  | Except.ok p, Except.ok q => some (Except.ok ⟨origin, p, q⟩)
  | Except.error d, Except.ok _ => some (Except.error d)
  | Except.ok _, Except.error d => some (Except.error d)
  | Except.error d1, Except.error d2 => some (Except.error (d1 ++ d2))

/-- C1: two `Segment` values compare equal iff their `name` fields are
equal, and two segments with equal names hash identically, regardless of
their kind, source, span, or index fields. -/
theorem segment_eq_hash_iff_name (a b : Segment) :
    (Segment.beq a b = true ↔ a.name = b.name) ∧
    (∀ (σ : Type) (stringHash : String → σ → σ) (st : σ),
      a.name = b.name →
      Segment.hash stringHash a st = Segment.hash stringHash b st) := by
  constructor
  · simp [Segment.beq]
  · intro σ stringHash st h
    simp [Segment.hash, h]

/-- Witness for C1 at two concrete segments sharing only the name. -/
theorem segment_eq_hash_iff_name_w :
    Segment.beq ⟨⟨0, 1⟩, Kind.Static, Source.Path, "x", none⟩
      ⟨⟨5, 9⟩, Kind.Multi, Source.Query, "x", some 3⟩ = true ∧
    Segment.hash (fun s n => s.data.length + n)
      (⟨⟨0, 1⟩, Kind.Static, Source.Path, "x", none⟩ : Segment) 7 =
    Segment.hash (fun s n => s.data.length + n)
      (⟨⟨5, 9⟩, Kind.Multi, Source.Query, "x", some 3⟩ : Segment) 7 :=
  ⟨(segment_eq_hash_iff_name _ _).1.mpr rfl,
   (segment_eq_hash_iff_name _ _).2 Nat (fun s n => s.data.length + n) 7 rfl⟩

/-- C6 counterexample: for the substring "c" at offset 8 of the haystack
"a/<b..>/c" with source range [0, 9), `trailspan` yields the range [7, 9),
which does not start at the substring's start offset 8. -/
theorem trailspan_counterexample :
    trailspan ⟨"c", 8⟩ "a/<b..>/c" ⟨0, 9⟩ = some ⟨7, 9⟩ ∧
    trailspan ⟨"c", 8⟩ "a/<b..>/c" ⟨0, 9⟩ ≠ some ⟨8, 9⟩ := by
  constructor <;> decide

/-- C6 amended: whenever `trailspan` returns a range, it ends at the end of
the haystack's range; it begins at the substring's start offset when the
substring begins the haystack, and one character before the substring's
start otherwise (pulling the preceding separator into the highlight). -/
theorem trailspan_spec (needle : Slice) (haystack : String) (span : Span)
    (sp : Span) (h : trailspan needle haystack span = some sp) :
    sp.hi = span.hi ∧
    (needle.off = 0 → sp.lo = span.lo) ∧
    (0 < needle.off → sp.lo + 1 = span.lo + needle.off) := by
  unfold trailspan Span.subspanFrom at h
  by_cases h0 : needle.off > 0
  · rw [if_pos h0] at h
    by_cases h1 : needle.off - 1 ≤ span.len
    · rw [if_pos h1] at h
      injection h with h2
      subst h2
      exact ⟨rfl, fun hz => by omega, fun _ => by simp; omega⟩
    · rw [if_neg h1] at h
      cases h
  · rw [if_neg h0] at h
    by_cases h1 : needle.off ≤ span.len
    · rw [if_pos h1] at h
      injection h with h2
      subst h2
      exact ⟨rfl, fun hz => by simp [hz], fun hpos => by omega⟩
    · rw [if_neg h1] at h
      cases h

/-- Witness for C6's amended statement at the counterexample's input. -/
theorem trailspan_spec_w :
    (Span.mk 7 9).hi = (Span.mk 0 9).hi ∧
    ((Slice.mk "c" 8).off = 0 → (Span.mk 7 9).lo = (Span.mk 0 9).lo) ∧
    (0 < (Slice.mk "c" 8).off →
      (Span.mk 7 9).lo + 1 = (Span.mk 0 9).lo + (Slice.mk "c" 8).off) :=
  trailspan_spec ⟨"c", 8⟩ "a/<b..>/c" ⟨0, 9⟩ ⟨7, 9⟩ (by decide)

/-- C7: formatting a `Trailing` error anchors the primary error at the span
computed by `trailspan` for the offending piece, with message "unexpected
trailing text after a '..' param" and help "a multi-segment param must be
the final component", plus a note anchored at the multi placeholder's own
subspan. -/
theorem trailing_diagnostic_shape (segment multi : Slice) (source : String)
    (span segSp multiSp tSp : Span)
    (hseg : subspan segment source span = some segSp)
    (hmulti : subspan multi source span = some multiSp)
    (htrail : trailspan segment source span = some tSp) :
    into_diagnostic segment source span (Error.Trailing multi) =
      some ⟨tSp, "unexpected trailing text after a \x27..\x27 param",
        [⟨DiagLevel.help, none, "a multi-segment param must be the final component"⟩,
         ⟨DiagLevel.note, some multiSp, "multi-segment param is here"⟩]⟩ := by
  simp [into_diagnostic, hseg, hmulti, htrail, Span.error, Diagnostic.help,
    Diagnostic.span_note]

/-- Witness for C7 at the "a/<b..>/c" example. -/
theorem trailing_diagnostic_shape_w :
    into_diagnostic ⟨"c", 8⟩ "a/<b..>/c" ⟨0, 9⟩ (Error.Trailing ⟨"<b..>", 2⟩) =
      some ⟨⟨7, 9⟩, "unexpected trailing text after a \x27..\x27 param",
        [⟨DiagLevel.help, none, "a multi-segment param must be the final component"⟩,
         ⟨DiagLevel.note, some ⟨2, 7⟩, "multi-segment param is here"⟩]⟩ :=
  trailing_diagnostic_shape ⟨"c", 8⟩ ⟨"<b..>", 2⟩ "a/<b..>/c" ⟨0, 9⟩
    ⟨8, 9⟩ ⟨2, 7⟩ ⟨7, 9⟩ (by decide) (by decide) (by decide)

/-- C8: `Status::from_meta` succeeds exactly on integers in [100, 599]; any
value below 100 or at or above 600 yields the range error, and on success
the wrapped status carries exactly the given code. -/
theorem status_from_meta_range (num : Nat) (span : Span) :
    (100 ≤ num ∧ num ≤ 599 → Status.from_meta num span = Except.ok ⟨num⟩) ∧
    (num < 100 ∨ 600 ≤ num →
      Status.from_meta num span =
        Except.error (span.error "status must be in range [100, 599]")) ∧
    ((∃ st, Status.from_meta num span = Except.ok st) ↔
      100 ≤ num ∧ num ≤ 599) := by
  refine ⟨fun h => ?_, fun h => ?_, ?_, ?_⟩
  · rw [Status.from_meta, if_neg (by omega)]
    simp [HttpStatus.raw, Nat.mod_eq_of_lt (show num < 65536 by omega)]
  · rw [Status.from_meta, if_pos h]
  · rintro ⟨st, hst⟩
    rw [Status.from_meta] at hst
    by_cases hc : num < 100 ∨ 600 ≤ num
    · rw [if_pos hc] at hst
      cases hst
    · omega
  · intro h
    refine ⟨⟨num⟩, ?_⟩
    rw [Status.from_meta, if_neg (by omega)]
    simp [HttpStatus.raw, Nat.mod_eq_of_lt (show num < 65536 by omega)]

/-- Witness for C8 at an in-range and an out-of-range code. -/
theorem status_from_meta_range_w :
    Status.from_meta 200 ⟨0, 3⟩ = Except.ok ⟨200⟩ ∧
    Status.from_meta 42 ⟨0, 2⟩ =
      Except.error (Span.error ⟨0, 2⟩ "status must be in range [100, 599]") :=
  ⟨(status_from_meta_range 200 ⟨0, 3⟩).1 (by decide),
   (status_from_meta_range 42 ⟨0, 2⟩).2.1 (by decide)⟩

/-- `VALID_METHODS.contains` agrees with list membership. -/
theorem valid_methods_contains (m : HttpMethod) :
    VALID_METHODS.contains m = true ↔ m ∈ VALID_METHODS := by
  cases m <;> decide

/-- C9: `Method::from_meta` accepts exactly the seven whitelisted methods;
an identifier parsing to any other method (such as `TRACE` or `CONNECT`) is
rejected with "invalid HTTP method for route handlers", and a non-identifier
meta item is always rejected. -/
theorem method_from_meta_valid_methods (span : Span) :
    (∀ s m, parseMethod s = some m →
      (Method.from_meta (MetaItem.ident s) span = Except.ok m ↔
        m ∈ VALID_METHODS)) ∧
    (∀ s m, parseMethod s = some m → m ∉ VALID_METHODS →
      Method.from_meta (MetaItem.ident s) span =
        Except.error ((span.error "invalid HTTP method for route handlers").help
          ("method must be one of: " ++ VALID_METHODS_STR))) ∧
    Method.from_meta (MetaItem.ident "TRACE") span =
      Except.error ((span.error "invalid HTTP method for route handlers").help
        ("method must be one of: " ++ VALID_METHODS_STR)) ∧
    Method.from_meta (MetaItem.ident "CONNECT") span =
      Except.error ((span.error "invalid HTTP method for route handlers").help
        ("method must be one of: " ++ VALID_METHODS_STR)) ∧
    (∀ descr, Method.from_meta (MetaItem.other descr) span =
      Except.error ((span.error ("expected identifier, found " ++ descr)).help
        ("method must be one of: " ++ VALID_METHODS_STR))) := by
  refine ⟨fun s m h => ?_, fun s m h hm => ?_, rfl, rfl, fun descr => rfl⟩
  · by_cases hm : m ∈ VALID_METHODS
    · have hc : VALID_METHODS.contains m = true := (valid_methods_contains m).mpr hm
      simp [Method.from_meta, h, hc, hm]
    · have hc : VALID_METHODS.contains m = false := by
        cases hco : VALID_METHODS.contains m
        · rfl
        · exact absurd ((valid_methods_contains m).mp hco) hm
      simp [Method.from_meta, h, hc, hm]
  · have hc : VALID_METHODS.contains m = false := by
      cases hco : VALID_METHODS.contains m
      · rfl
      · exact absurd ((valid_methods_contains m).mp hco) hm
    simp [Method.from_meta, h, hc]
    exact hm

/-- Witness for C9: `GET` is accepted, `TRACE` is rejected. -/
theorem method_from_meta_valid_methods_w :
    Method.from_meta (MetaItem.ident "GET") ⟨0, 3⟩ = Except.ok HttpMethod.Get ∧
    Method.from_meta (MetaItem.ident "TRACE") ⟨0, 5⟩ =
      Except.error ((Span.error ⟨0, 5⟩ "invalid HTTP method for route handlers").help
        ("method must be one of: " ++ VALID_METHODS_STR)) :=
  ⟨((method_from_meta_valid_methods ⟨0, 3⟩).1 "GET" HttpMethod.Get
      (by decide)).mpr (by decide),
   (method_from_meta_valid_methods ⟨0, 5⟩).2.2.1⟩

/-- Any segment returned by `Segment::from_meta` has kind `Single` (the
non-`Single` case is rejected before the `Ok`). -/
theorem segment_from_meta_single (string : String) (vspan : Span)
    (seg : Segment) (h : Segment.from_meta string vspan = some (Except.ok seg)) :
    seg.kind = Kind.Single := by
  unfold Segment.from_meta at h
  cases hsub : Span.subspan vspan 1 (string.data.length + 1) with
  | none => rw [hsub] at h; cases h
  | some span =>
    rw [hsub] at h
    simp only [bind, Option.bind] at h
    cases hps : parse_segment string span with
    | none => rw [hps] at h; cases h
    | some res =>
      rw [hps] at h
      simp only [bind, Option.bind] at h
      cases res with
      | error d => simp at h
      | ok s0 =>
        replace h : (if s0.kind ≠ Kind.Single then
            some (Except.error ((span.error "malformed parameter").help
              "parameter must be of the form \x27<param>\x27"))
          else some (Except.ok s0)) = some (Except.ok seg) := h
        by_cases hk : s0.kind ≠ Kind.Single
        · rw [if_pos hk] at h
          simp at h
        · rw [if_neg hk] at h
          simp at h
          rw [← h]
          exact not_ne_iff.mp hk

/-- C10: every segment produced by `DataSegment::from_meta` has kind
`Single`, source `Data`, and index `Some(0)`; `Segment::from_meta` rejects
any parsed segment whose kind is not `Single` with the "malformed
parameter" error, so `Static` and `Multi` segments can never become a
`DataSegment`. -/
theorem data_segment_invariants :
    (∀ string vspan seg,
      DataSegment.from_meta string vspan = some (Except.ok seg) →
      seg.kind = Kind.Single ∧ seg.source = Source.Data ∧ seg.index = some 0) ∧
    (∀ string vspan span seg,
      Span.subspan vspan 1 (string.data.length + 1) = some span →
      parse_segment string span = some (Except.ok seg) →
      seg.kind ≠ Kind.Single →
      Segment.from_meta string vspan =
        some (Except.error ((span.error "malformed parameter").help
          "parameter must be of the form \x27<param>\x27"))) := by
  constructor
  · intro string vspan seg h
    unfold DataSegment.from_meta at h
    cases hfm : Segment.from_meta string vspan with
    | none => rw [hfm] at h; cases h
    | some res =>
      rw [hfm] at h
      simp only [bind, Option.bind] at h
      cases res with
      | error d => simp at h
      | ok s0 =>
        simp at h
        have hk := segment_from_meta_single string vspan s0 hfm
        rw [← h]
        exact ⟨hk, rfl, rfl⟩
  · intro string vspan span seg hsub hps hk
    unfold Segment.from_meta
    simp only [hsub, hps, bind, Option.bind]
    rw [if_pos hk]

/-- Witness for C10 at the literal "<a>" (value span [0, 5) including the
quotes). -/
theorem data_segment_invariants_w :
    (Segment.mk ⟨1, 4⟩ Kind.Single Source.Data "a" (some 0)).kind = Kind.Single ∧
    (Segment.mk ⟨1, 4⟩ Kind.Single Source.Data "a" (some 0)).source = Source.Data ∧
    (Segment.mk ⟨1, 4⟩ Kind.Single Source.Data "a" (some 0)).index = some 0 :=
  data_segment_invariants.1 "<a>" ⟨0, 5⟩
    ⟨⟨1, 4⟩, Kind.Single, Source.Data, "a", some 0⟩ (by rfl)

/-- C4: `RoutePath::from_meta` merges the two halves: when both succeed it
returns the assembled route path with its origin, path segments, and
optional query segments; when exactly one half fails it surfaces that
half's diagnostics; when both fail it returns the join of both diagnostic
reports. -/
theorem route_path_merges_diagnostics (origin : Origin) (span : Span) :
    (∀ p q, pathHalf origin span = some (Except.ok p) →
      queryHalf origin span = some (Except.ok q) →
      RoutePath.from_meta origin span = some (Except.ok ⟨origin, p, q⟩)) ∧
    (∀ d1 q, pathHalf origin span = some (Except.error d1) →
      queryHalf origin span = some (Except.ok q) →
      RoutePath.from_meta origin span = some (Except.error d1)) ∧
    (∀ p d2, pathHalf origin span = some (Except.ok p) →
      queryHalf origin span = some (Except.error d2) →
      RoutePath.from_meta origin span = some (Except.error d2)) ∧
    (∀ d1 d2, pathHalf origin span = some (Except.error d1) →
      queryHalf origin span = some (Except.error d2) →
      RoutePath.from_meta origin span = some (Except.error (d1 ++ d2))) := by
  refine ⟨fun p q h1 h2 => ?_, fun d1 q h1 h2 => ?_,
    fun p d2 h1 h2 => ?_, fun d1 d2 h1 h2 => ?_⟩ <;>
  · unfold RoutePath.from_meta
    simp only [h1, h2, bind, Option.bind]

/-- Witness for C4: a template whose path and query both contain errors
yields the joined report with both diagnostics. -/
theorem route_path_merges_diagnostics_w :
    RoutePath.from_meta ⟨"/a%", some "b+"⟩ ⟨0, 8⟩ =
      some (Except.error
        ([⟨⟨2, 4⟩, "component contains invalid URI characters",
           [⟨DiagLevel.note, none,
             "components cannot contain \x27%\x27 and \x27+\x27 characters"⟩]⟩] ++
         [⟨⟨5, 7⟩, "component contains invalid URI characters",
           [⟨DiagLevel.note, none,
             "components cannot contain \x27%\x27 and \x27+\x27 characters"⟩]⟩])) :=
  (route_path_merges_diagnostics ⟨"/a%", some "b+"⟩ ⟨0, 8⟩).2.2.2
    [⟨⟨2, 4⟩, "component contains invalid URI characters",
      [⟨DiagLevel.note, none,
        "components cannot contain \x27%\x27 and \x27+\x27 characters"⟩]⟩]
    [⟨⟨5, 7⟩, "component contains invalid URI characters",
      [⟨DiagLevel.note, none,
        "components cannot contain \x27%\x27 and \x27+\x27 characters"⟩]⟩]
    (by rfl) (by rfl)

/-- C5: with a query present, a query starting with `&`, ending with `&`,
or containing `&&` is rejected with the single structural
empty-query-segment diagnostic, independently of the per-segment grammar;
otherwise the query half is exactly the per-segment split on `&` with
`Query` provenance. -/
theorem query_structural_rejection (origin : Origin) (span : Span)
    (q : String) (hq : origin.query = some q) (query_span : Span)
    (hspan : Span.subspan span (1 + origin.path.data.length + 1)
      (1 + origin.path.data.length + 1 + q.data.length) = some query_span) :
    ((strStartsWithChar q '&' || strContains q "&&" || strEndsWithChar q '&') = true →
      queryHalf origin span =
        some (Except.error [query_span.error "query cannot contain empty segments"])) ∧
    ((strStartsWithChar q '&' || strContains q "&&" || strEndsWithChar q '&') = false →
      queryHalf origin span =
        (parse_segments q '&' Source.Query query_span).map (Except.map some)) := by
  constructor <;> intro hcond <;>
  · unfold queryHalf
    rw [hq]
    simp only [hspan, bind, Option.bind, hcond, if_true, if_false, Bool.false_eq_true]

/-- Witness for C5 at the spec's example query. -/
theorem query_structural_rejection_w :
    queryHalf ⟨"/x", some "a=<b>&&c=<d>"⟩ ⟨0, 17⟩ =
      some (Except.error [Span.error ⟨4, 16⟩ "query cannot contain empty segments"]) :=
  (query_structural_rejection ⟨"/x", some "a=<b>&&c=<d>"⟩ ⟨0, 17⟩
    "a=<b>&&c=<d>" rfl ⟨4, 16⟩ (by decide)).1 (by decide)

/-- `true` exactly on results that are `Trailing` errors. -/
def isTrailingResult : SResult → Bool
  | Except.error (_, e) => e.isTrailing
  | Except.ok _ => false

/-- The loop on the empty result list yields empty accumulators. -/
theorem parseSegmentsGo_nil (string : String) (span : Span) :
    parseSegmentsGo string span [] = some ([], []) := rfl

/-- The loop processes the head piece, then the remaining ones. -/
theorem parseSegmentsGo_cons (string : String) (span : Span) (r : SResult)
    (rest : List SResult) :
    parseSegmentsGo string span (r :: rest) =
      parseSegmentsStep string span r (parseSegmentsGo string span rest) := rfl

/-- Step on a failing piece whose diagnostic cannot be formatted: panic. -/
theorem parseSegmentsStep_error_none (string : String) (span : Span)
    (s : Slice) (e : Error) (acc : Option (List Segment × List Diagnostic))
    (hd : into_diagnostic s string span e = none) :
    parseSegmentsStep string span (Except.error (s, e)) acc = none := by
  simp only [parseSegmentsStep, hd]

/-- Step on a non-`Trailing` failing piece: prepend its diagnostic. -/
theorem parseSegmentsStep_error_some (string : String) (span : Span)
    (s : Slice) (e : Error) (d : Diagnostic)
    (acc : Option (List Segment × List Diagnostic))
    (hd : into_diagnostic s string span e = some d)
    (ht : e.isTrailing = false) :
    parseSegmentsStep string span (Except.error (s, e)) acc =
      acc.map (fun p => (p.1, d :: p.2)) := by
  simp only [parseSegmentsStep, hd, ht]
  simp

/-- Step on a `Trailing` failing piece: keep only its diagnostic. -/
theorem parseSegmentsStep_trailing (string : String) (span : Span)
    (s : Slice) (e : Error) (d : Diagnostic)
    (acc : Option (List Segment × List Diagnostic))
    (hd : into_diagnostic s string span e = some d)
    (ht : e.isTrailing = true) :
    parseSegmentsStep string span (Except.error (s, e)) acc = some ([], [d]) := by
  simp only [parseSegmentsStep, hd, ht]
  simp

/-- Step on a successful piece whose span cannot be computed: panic. -/
theorem parseSegmentsStep_ok_none (string : String) (span : Span)
    (seg : RouteSegment) (acc : Option (List Segment × List Diagnostic))
    (hsp : subspan seg.string string span = none) :
    parseSegmentsStep string span (Except.ok seg) acc = none := by
  simp only [parseSegmentsStep, hsp]

/-- Step on a successful piece: prepend its located segment. -/
theorem parseSegmentsStep_ok_some (string : String) (span : Span)
    (seg : RouteSegment) (sp : Span)
    (acc : Option (List Segment × List Diagnostic))
    (hsp : subspan seg.string string span = some sp) :
    parseSegmentsStep string span (Except.ok seg) acc =
      acc.map (fun p => (Segment.fromRoute seg sp :: p.1, p.2)) := by
  simp only [parseSegmentsStep, hsp]

/-- A `Trailing` step ignores the outcome of the remaining iterations. -/
theorem parseSegmentsStep_trailing_const (string : String) (span : Span)
    (s m : Slice) (acc acc2 : Option (List Segment × List Diagnostic)) :
    parseSegmentsStep string span (Except.error (s, Error.Trailing m)) acc =
    parseSegmentsStep string span (Except.error (s, Error.Trailing m)) acc2 := by
  cases hdiag : into_diagnostic s string span (Error.Trailing m) with
  | none =>
    rw [parseSegmentsStep_error_none string span s _ acc hdiag,
      parseSegmentsStep_error_none string span s _ acc2 hdiag]
  | some d =>
    rw [parseSegmentsStep_trailing string span s _ d acc hdiag rfl,
      parseSegmentsStep_trailing string span s _ d acc2 hdiag rfl]

/-- Everything after a `Trailing` error is ignored by the `parse_segments`
loop: the computation on `l1 ++ trailing :: l2` equals the one on
`l1 ++ [trailing]`. -/
theorem parseSegmentsGo_trailing_truncates (string : String) (span : Span)
    (s m : Slice) (l2 : List SResult) (l1 : List SResult) :
    parseSegmentsGo string span (l1 ++ Except.error (s, Error.Trailing m) :: l2) =
    parseSegmentsGo string span (l1 ++ [Except.error (s, Error.Trailing m)]) := by
  unfold parseSegmentsGo
  rw [List.foldr_append, List.foldr_append]
  congr 1

/-- Running the loop with a base holding extra diagnostics appends them
after the ones collected from a trailing-free list. -/
theorem parseSegmentsGo_with_base (string : String) (span : Span)
    (l1 : List SResult) :
    ∀ segs ds extra, (∀ r ∈ l1, isTrailingResult r = false) →
      parseSegmentsGo string span l1 = some (segs, ds) →
      l1.foldr (parseSegmentsStep string span) (some ([], extra)) =
        some (segs, ds ++ extra) := by
  induction l1 with
  | nil =>
    intro segs ds extra _ hgo
    rw [parseSegmentsGo_nil] at hgo
    injection hgo with hgo
    injection hgo with h1 h2
    subst h1
    subst h2
    rfl
  | cons r l1 ih =>
    intro segs ds extra hno hgo
    have hnotail : ∀ r ∈ l1, isTrailingResult r = false :=
      fun r hr => hno r (List.mem_cons_of_mem _ hr)
    rw [parseSegmentsGo_cons] at hgo
    rw [List.foldr_cons]
    match r with
    | Except.error (s2, e2) =>
      have ht : e2.isTrailing = false := hno _ (List.mem_cons_self _ _)
      cases hdiag : into_diagnostic s2 string span e2 with
      | none =>
        rw [parseSegmentsStep_error_none string span s2 e2 _ hdiag] at hgo
        exact Option.noConfusion hgo
      | some d2 =>
        rw [parseSegmentsStep_error_some string span s2 e2 d2 _ hdiag ht] at hgo
        cases hrest : parseSegmentsGo string span l1 with
        | none =>
          rw [hrest] at hgo
          exact Option.noConfusion hgo
        | some p =>
          obtain ⟨segs1, ds1⟩ := p
          rw [hrest] at hgo
          replace hgo : (some (segs1, d2 :: ds1) :
              Option (List Segment × List Diagnostic)) = some (segs, ds) := hgo
          injection hgo with hgo
          injection hgo with h1 h2
          subst h1
          subst h2
          rw [parseSegmentsStep_error_some string span s2 e2 d2 _ hdiag ht,
            ih segs1 ds1 extra hnotail hrest]
          simp
    | Except.ok seg =>
      cases hsp : subspan seg.string string span with
      | none =>
        rw [parseSegmentsStep_ok_none string span seg _ hsp] at hgo
        exact Option.noConfusion hgo
      | some sp =>
        rw [parseSegmentsStep_ok_some string span seg sp _ hsp] at hgo
        cases hrest : parseSegmentsGo string span l1 with
        | none =>
          rw [hrest] at hgo
          exact Option.noConfusion hgo
        | some p =>
          obtain ⟨segs1, ds1⟩ := p
          rw [hrest] at hgo
          replace hgo : (some (Segment.fromRoute seg sp :: segs1, ds1) :
              Option (List Segment × List Diagnostic)) = some (segs, ds) := hgo
          injection hgo with hgo
          injection hgo with h1 h2
          subst h1
          subst h2
          rw [parseSegmentsStep_ok_some string span seg sp _ hsp,
            ih segs1 ds1 extra hnotail hrest]
          simp

/-- Appending a `Trailing` error to a trailing-free prefix appends exactly
its diagnostic to the collected ones. -/
theorem parseSegmentsGo_append_trailing (string : String) (span : Span)
    (s m : Slice) (d : Diagnostic)
    (hd : into_diagnostic s string span (Error.Trailing m) = some d)
    (l1 : List SResult) (segs : List Segment) (ds : List Diagnostic)
    (hno : ∀ r ∈ l1, isTrailingResult r = false)
    (hgo : parseSegmentsGo string span l1 = some (segs, ds)) :
    parseSegmentsGo string span (l1 ++ [Except.error (s, Error.Trailing m)]) =
      some (segs, ds ++ [d]) := by
  unfold parseSegmentsGo
  rw [List.foldr_append]
  have hbase : List.foldr (parseSegmentsStep string span) (some ([], []))
      [Except.error (s, Error.Trailing m)] = some ([], [d]) := by
    rw [List.foldr_cons, List.foldr_nil]
    exact parseSegmentsStep_trailing string span s _ d _ hd rfl
  rw [hbase]
  exact parseSegmentsGo_with_base string span l1 segs ds [d] hno hgo

/-- `segmentsOf` on a completed loop run: `Ok` with the segments exactly
when no diagnostic was collected. -/
theorem segmentsOf_of_go (string : String) (span : Span)
    (results : List SResult) (segs : List Segment) (ds : List Diagnostic)
    (h : parseSegmentsGo string span results = some (segs, ds)) :
    segmentsOf string span results =
      some (if ds = [] then Except.ok segs else Except.error ds) := by
  unfold segmentsOf
  rw [h]

/-- C2: once `parse_segments` encounters a `Trailing` result from the
underlying piece sequence, it records that diagnostic and produces no
further segments and no further diagnostics from the remaining pieces. -/
theorem parse_segments_stops_after_trailing (string : String) (sep : Char)
    (source : Source) (span : Span) (l1 l2 : List SResult) (s m : Slice)
    (hsplit : parse_many string sep source =
      l1 ++ Except.error (s, Error.Trailing m) :: l2) :
    parse_segments string sep source span =
      segmentsOf string span (l1 ++ [Except.error (s, Error.Trailing m)]) ∧
    (∀ segs ds d,
      (∀ r ∈ l1, isTrailingResult r = false) →
      parseSegmentsGo string span l1 = some (segs, ds) →
      into_diagnostic s string span (Error.Trailing m) = some d →
      parse_segments string sep source span =
        some (Except.error (ds ++ [d]))) := by
  have htr := parseSegmentsGo_trailing_truncates string span s m l2 l1
  constructor
  · unfold parse_segments segmentsOf
    rw [hsplit, htr]
  · intro segs ds d hno hgo hd
    have hgo2 : parseSegmentsGo string span
        (l1 ++ Except.error (s, Error.Trailing m) :: l2) = some (segs, ds ++ [d]) := by
      rw [htr]
      exact parseSegmentsGo_append_trailing string span s m d hd l1 segs ds hno hgo
    unfold parse_segments
    rw [hsplit, segmentsOf_of_go string span _ segs (ds ++ [d]) hgo2,
      if_neg (by simp)]

/-- Witness for C2 at the spec's "a/<b..>/c" example: the result is the
single trailing diagnostic, with no segment or diagnostic for the piece
after the multi placeholder. -/
theorem parse_segments_stops_after_trailing_w :
    parse_segments "a/<b..>/c" '/' Source.Path ⟨0, 9⟩ =
      some (Except.error ([] ++
        [⟨⟨7, 9⟩, "unexpected trailing text after a \x27..\x27 param",
          [⟨DiagLevel.help, none, "a multi-segment param must be the final component"⟩,
           ⟨DiagLevel.note, some ⟨2, 7⟩, "multi-segment param is here"⟩]⟩])) :=
  (parse_segments_stops_after_trailing "a/<b..>/c" '/' Source.Path ⟨0, 9⟩
    [Except.ok ⟨⟨"a", 0⟩, Kind.Static, Source.Path, "a", some 0⟩,
     Except.ok ⟨⟨"<b..>", 2⟩, Kind.Multi, Source.Path, "b", some 1⟩]
    [] ⟨"c", 8⟩ ⟨"<b..>", 2⟩ (by rfl)).2
    [⟨⟨0, 1⟩, Kind.Static, Source.Path, "a", some 0⟩,
     ⟨⟨2, 7⟩, Kind.Multi, Source.Path, "b", some 1⟩]
    []
    ⟨⟨7, 9⟩, "unexpected trailing text after a \x27..\x27 param",
      [⟨DiagLevel.help, none, "a multi-segment param must be the final component"⟩,
       ⟨DiagLevel.note, some ⟨2, 7⟩, "multi-segment param is here"⟩]⟩
    (by decide) (by rfl) (by rfl)

/-- The diagnostic a failing result contributes (none for successes). -/
def diagOfResult (string : String) (span : Span) : SResult → Option Diagnostic
  | Except.error (s, e) => into_diagnostic s string span e
  | Except.ok _ => none

/-- The located segment a successful result contributes (none for
failures). -/
def segOfResult (string : String) (span : Span) : SResult → Option Segment
  | Except.ok seg => (subspan seg.string string span).map (Segment.fromRoute seg)
  | Except.error _ => none

/-- `true` exactly on failing results. -/
def isErrResult : SResult → Bool
  | Except.error _ => true
  | Except.ok _ => false

/-- `true` when the result's diagnostic or span computation succeeds, so
the loop does not panic on it. -/
def resultComputable (string : String) (span : Span) : SResult → Bool
  | Except.error (s, e) => (into_diagnostic s string span e).isSome
  | Except.ok seg => (subspan seg.string string span).isSome

/-- On a trailing-free, panic-free result list the loop collects exactly
the per-result segments and diagnostics, in order. -/
theorem parseSegmentsGo_accumulates (string : String) (span : Span) :
    ∀ results : List SResult,
      (∀ r ∈ results, isTrailingResult r = false) →
      (∀ r ∈ results, resultComputable string span r = true) →
      parseSegmentsGo string span results =
        some (results.filterMap (segOfResult string span),
              results.filterMap (diagOfResult string span)) := by
  intro results
  induction results with
  | nil => intro _ _; rfl
  | cons r rest ih =>
    intro hnt hc
    have hnt2 : ∀ x ∈ rest, isTrailingResult x = false :=
      fun x hx => hnt x (List.mem_cons_of_mem _ hx)
    have hc2 : ∀ x ∈ rest, resultComputable string span x = true :=
      fun x hx => hc x (List.mem_cons_of_mem _ hx)
    rw [parseSegmentsGo_cons, ih hnt2 hc2]
    match r with
    | Except.error (s2, e2) =>
      have ht : e2.isTrailing = false := hnt _ (List.mem_cons_self _ _)
      have hcs := hc _ (List.mem_cons_self _ _)
      cases hdiag : into_diagnostic s2 string span e2 with
      | none => simp [resultComputable, hdiag] at hcs
      | some d2 =>
        rw [parseSegmentsStep_error_some string span s2 e2 d2 _ hdiag ht]
        simp [List.filterMap_cons, diagOfResult, segOfResult, hdiag]
    | Except.ok seg =>
      have hcs := hc _ (List.mem_cons_self _ _)
      cases hsp : subspan seg.string string span with
      | none => simp [resultComputable, hsp] at hcs
      | some sp =>
        rw [parseSegmentsStep_ok_some string span seg sp _ hsp]
        simp [List.filterMap_cons, diagOfResult, segOfResult, hsp]

/-- With every result computable, the loop collects exactly one diagnostic
per failing result and one segment per successful one. -/
theorem filterMap_counts (string : String) (span : Span) :
    ∀ results : List SResult,
      (∀ r ∈ results, resultComputable string span r = true) →
      (results.filterMap (diagOfResult string span)).length =
        (results.filter isErrResult).length ∧
      (results.filterMap (segOfResult string span)).length =
        (results.filter (fun r => !isErrResult r)).length := by
  intro results
  induction results with
  | nil => intro _; exact ⟨rfl, rfl⟩
  | cons r rest ih =>
    intro hc
    have hih := ih (fun x hx => hc x (List.mem_cons_of_mem _ hx))
    have hcs := hc _ (List.mem_cons_self _ _)
    match r with
    | Except.error (s2, e2) =>
      cases hdiag : into_diagnostic s2 string span e2 with
      | none => simp [resultComputable, hdiag] at hcs
      | some d2 =>
        constructor
        · simp [List.filterMap_cons, List.filter_cons, diagOfResult,
            isErrResult, hdiag, hih.1]
        · simp [List.filterMap_cons, List.filter_cons, segOfResult,
            isErrResult, hih.2]
    | Except.ok seg =>
      cases hsp : subspan seg.string string span with
      | none => simp [resultComputable, hsp] at hcs
      | some sp =>
        constructor
        · simp [List.filterMap_cons, List.filter_cons, diagOfResult,
            isErrResult, hih.1]
        · simp [List.filterMap_cons, List.filter_cons, segOfResult,
            isErrResult, hsp, hih.2]

/-- C3: except after a `Trailing` condition (excluded by hypothesis, and
settled separately), per-piece errors are accumulated rather than
short-circuited: the result is `Err` with one diagnostic per failing piece
exactly when some piece failed, and `Ok` with the full segment sequence
exactly when no piece failed. -/
theorem parse_segments_accumulates (string : String) (sep : Char)
    (source : Source) (span : Span)
    (hnt : ∀ r ∈ parse_many string sep source, isTrailingResult r = false)
    (hc : ∀ r ∈ parse_many string sep source,
      resultComputable string span r = true) :
    parse_segments string sep source span =
      some (if (parse_many string sep source).any isErrResult = true
        then Except.error ((parse_many string sep source).filterMap
          (diagOfResult string span))
        else Except.ok ((parse_many string sep source).filterMap
          (segOfResult string span))) ∧
    ((parse_many string sep source).filterMap (diagOfResult string span)).length =
      ((parse_many string sep source).filter isErrResult).length ∧
    ((parse_many string sep source).filterMap (segOfResult string span)).length =
      ((parse_many string sep source).filter (fun r => !isErrResult r)).length := by
  have hgo := parseSegmentsGo_accumulates string span (parse_many string sep source) hnt hc
  have hcount := filterMap_counts string span (parse_many string sep source) hc
  refine ⟨?_, hcount.1, hcount.2⟩
  unfold parse_segments
  rw [segmentsOf_of_go string span _ _ _ hgo]
  by_cases hany : (parse_many string sep source).any isErrResult = true
  · rw [if_pos hany, if_neg ?_]
    obtain ⟨r, hr, herr⟩ := List.any_eq_true.mp hany
    match r with
    | Except.ok seg => simp [isErrResult] at herr
    | Except.error (s2, e2) =>
      have hcs := hc _ hr
      obtain ⟨d2, hd2⟩ := Option.isSome_iff_exists.mp hcs
      have hmem : d2 ∈ (parse_many string sep source).filterMap
          (diagOfResult string span) :=
        List.mem_filterMap.mpr ⟨Except.error (s2, e2), hr, hd2⟩
      exact List.ne_nil_of_mem hmem
  · have hall : ∀ r ∈ parse_many string sep source, isErrResult r = false := by
      intro r hr
      cases herr : isErrResult r with
      | false => rfl
      | true => exact absurd (List.any_eq_true.mpr ⟨r, hr, herr⟩) hany
    have hnil : (parse_many string sep source).filterMap
        (diagOfResult string span) = [] := by
      rw [List.filterMap_eq_nil_iff]
      intro r hr
      match r with
      | Except.ok seg => rfl
      | Except.error (s2, e2) => exact absurd (hall _ hr) (by simp [isErrResult])
    rw [if_neg hany, if_pos hnil]

/-- Witness for C3 at "a%/<b>/+c": two failing pieces and one success, all
accumulated. -/
theorem parse_segments_accumulates_w :
    parse_segments "a%/<b>/+c" '/' Source.Path ⟨0, 9⟩ =
      some (if (parse_many "a%/<b>/+c" '/' Source.Path).any isErrResult = true
        then Except.error ((parse_many "a%/<b>/+c" '/' Source.Path).filterMap
          (diagOfResult "a%/<b>/+c" ⟨0, 9⟩))
        else Except.ok ((parse_many "a%/<b>/+c" '/' Source.Path).filterMap
          (segOfResult "a%/<b>/+c" ⟨0, 9⟩))) ∧
    ((parse_many "a%/<b>/+c" '/' Source.Path).filterMap
      (diagOfResult "a%/<b>/+c" ⟨0, 9⟩)).length =
      ((parse_many "a%/<b>/+c" '/' Source.Path).filter isErrResult).length ∧
    ((parse_many "a%/<b>/+c" '/' Source.Path).filterMap
      (segOfResult "a%/<b>/+c" ⟨0, 9⟩)).length =
      ((parse_many "a%/<b>/+c" '/' Source.Path).filter
        (fun r => !isErrResult r)).length :=
  parse_segments_accumulates "a%/<b>/+c" '/' Source.Path ⟨0, 9⟩
    (by decide) (by decide)

end Rocket
